import Mathlib

/-!
Verification development for the Expenses-Analyzer repository (src/app.py).

The summary-extraction engine of the repository is a pipeline of Python regular
expression stages over the text of the first pages of a statement document.
We give a shallow embedding:

* strings are lists of characters (`Str`);
* the Python `re` module calls are modelled by an explicit backtracking
  matcher over a small regular-expression syntax (`Rx`), with Python
  semantics: leftmost match, greedy and lazy repetition, prioritised
  alternation, capture groups with last-write-wins, word boundaries;
* money values are modelled in integer paise (hundredths of a rupee):
  every numeric token handled by the program has exactly two decimal
  digits, and on such values Python float arithmetic, comparison and
  2-decimal formatting agree exactly with the integer model;
* document input is `Except String (List Str)`: the list of per-page
  extracted texts, or an error for an unreadable document (the model of a
  pdfplumber exception).

The matcher takes explicit fuel and decreases it on every recursive call;
the fuel supplied by the entry points is far larger than the recursion
depth any of the embedded patterns can reach on a given input, and the
symbolic lemmas below hold for every fuel value.
-/

set_option maxRecDepth 4096

namespace ExpAn

abbrev Str := List Char

def sl (s : String) : Str := s.toList

/-- ASCII decimal digit test (the digits relevant to every pattern in app.py). -/
def isDigitA (c : Char) : Bool := '0' ≤ c && c ≤ '9'

/-- ASCII whitespace, the characters the Python regex class \s matches on this input. -/
def isSpaceA (c : Char) : Bool :=
  c = ' ' || c = '\t' || c = '\n' || c = '\r' || c = '\x0b' || c = '\x0c'

/-- ASCII letter test, the regex class [A-Za-z]. -/
def isAlphaA (c : Char) : Bool := ('a' ≤ c && c ≤ 'z') || ('A' ≤ c && c ≤ 'Z')

/-- ASCII lower-casing, the model of str.lower() on the program's input alphabet. -/
def lowerA (c : Char) : Char :=
  if 'A' ≤ c && c ≤ 'Z' then Char.ofNat (c.toNat + 32) else c

/-- Word character for the regex \b boundary: [A-Za-z0-9_]. -/
def isWordA (c : Char) : Bool := isAlphaA c || isDigitA c || c = '_'

/-- Character classes appearing in the app.py patterns. -/
inductive CC where
  | digit                 -- \d
  | space                 -- \s
  | alpha                 -- [A-Za-z]
  | alnumSpComma          -- [A-Za-z0-9\s,] (also written [A-Za-z0-9,\s])
  | dot                   -- . without DOTALL: any character except newline
  | nonDigit              -- [\s\D]: every whitespace char is also non-digit
  | ch (c : Char)         -- a literal character
  | chCI (c : Char)       -- a literal character under IGNORECASE
  | oneOf (cs : List Char)  -- an explicit set such as [:\-]

def ccMatches : CC → Char → Bool
  | .digit, c => isDigitA c
  | .space, c => isSpaceA c
  | .alpha, c => isAlphaA c
  | .alnumSpComma, c => isAlphaA c || isDigitA c || isSpaceA c || c = ','
  | .dot, c => c ≠ '\n'
  | .nonDigit, c => !(isDigitA c)
  | .ch a, c => c = a
  | .chCI a, c => lowerA c = lowerA a
  | .oneOf cs, c => cs.contains c

/-- Regular-expression syntax.  Greedy/lazy preference is a flag on the
repetition constructs; alternation prefers its left branch, as in Python. -/
inductive Rx where
  | eps
  | cls (c : CC)
  | seq (a b : Rx)
  | alt (a b : Rx)
  | rep (a : Rx) (lo hi : Nat) (lz : Bool)  -- a{lo,hi} (lazy iff lz)
  | star (a : Rx) (lz : Bool)               -- a* (lazy iff lz)
  | grp (i : Nat) (a : Rx)                  -- capturing group number i
  | wordB                                   -- \b
  | eos                                     -- $ (no MULTILINE)

abbrev Caps := List (Nat × Str)

/-- Backtracking matcher in continuation style.  `prev` is the character just
before the current position (for \b), `caps` the captures recorded so far on
this path.  The continuation decides what to do after the pattern has
matched a prefix; the first success in Python preference order is returned.
Fuel decreases on every recursive call. -/
def mtch {σ : Type} : Nat → Rx → Option Char → Str → Caps →
    (Option Char → Str → Caps → Option σ) → Option σ
  | 0, _, _, _, _, _ => none
  | _ + 1, .eps, prev, s, caps, k => k prev s caps
  | _ + 1, .cls c, _, s, caps, k =>
    match s with
    | [] => none
    | x :: xs => if ccMatches c x then k (some x) xs caps else none
  | n + 1, .seq a b, prev, s, caps, k =>
    mtch n a prev s caps fun p t cs => mtch n b p t cs k
  | n + 1, .alt a b, prev, s, caps, k =>
    match mtch n a prev s caps k with
    | some res => some res
    | none => mtch n b prev s caps k
  | n + 1, .rep a lo hi lz, prev, s, caps, k =>
    if lo ≠ 0 then
      mtch n a prev s caps fun p t cs => mtch n (.rep a (lo - 1) (hi - 1) lz) p t cs k
    else if hi = 0 then k prev s caps
    else if lz then
      match k prev s caps with
      | some res => some res
      | none => mtch n a prev s caps fun p t cs => mtch n (.rep a 0 (hi - 1) lz) p t cs k
    else
      match mtch n a prev s caps (fun p t cs => mtch n (.rep a 0 (hi - 1) lz) p t cs k) with
      | some res => some res
      | none => k prev s caps
  | n + 1, .star a lz, prev, s, caps, k =>
    if lz then
      match k prev s caps with
      | some res => some res
      | none => mtch n a prev s caps fun p t cs => mtch n (.star a lz) p t cs k
    else
      match mtch n a prev s caps (fun p t cs => mtch n (.star a lz) p t cs k) with
      | some res => some res
      | none => k prev s caps
  | n + 1, .grp i a, prev, s, caps, k =>
    mtch n a prev s caps fun p t cs => k p t ((i, s.take (s.length - t.length)) :: cs)
  | _ + 1, .wordB, prev, s, caps, k =>
    let wl := match prev with | some c => isWordA c | none => false
    let wr := match s with | c :: _ => isWordA c | [] => false
    if wl != wr then k prev s caps else none
  | _ + 1, .eos, prev, s, caps, k =>
    if s.isEmpty || s = ['\n'] then k prev s caps else none

def rxSize : Rx → Nat
  | .eps => 1
  | .cls _ => 1
  | .seq a b => rxSize a + rxSize b + 1
  | .alt a b => rxSize a + rxSize b + 1
  | .rep a _ hi _ => rxSize a + hi + 2
  | .star a _ => rxSize a + 1
  | .grp _ a => rxSize a + 1
  | .wordB => 1
  | .eos => 1

/-- Fuel that dominates the recursion depth of any match attempt of `r`
against `s` (each star iteration consumes input, each node costs O(1)). -/
def fuelFor (r : Rx) (s : Str) : Nat := 8 * (rxSize r + s.length) + 64

def searchAux (r : Rx) : Nat → Option Char → Str → Option Caps
  | 0, _, _ => none
  | n + 1, prev, s =>
    match mtch (fuelFor r s) r prev s [] (fun _ _ cs => some cs) with
    | some cs => some cs
    | none =>
      match s with
      | [] => none
      | c :: rest => searchAux r n (some c) rest

/-- Python re.search: try each start position from the left, first match wins. -/
def reSearch (r : Rx) (s : Str) : Option Caps := searchAux r (s.length + 1) none s

/-- Python re.match: anchored at the start of the string. -/
def reMatch (r : Rx) (s : Str) : Option Caps :=
  mtch (fuelFor r s) r none s [] (fun _ _ cs => some cs)

def findAllAux (r : Rx) : Nat → Option Char → Str → List Caps
  | 0, _, _ => []
  | n + 1, prev, s =>
    match mtch (fuelFor r s) r prev s [] (fun p t cs => some (cs, p, t)) with
    | some (cs, p, t) =>
      if t.length = s.length then
        match s with
        | [] => [cs]
        | c :: rest => cs :: findAllAux r n (some c) rest
      else cs :: findAllAux r n p t
    | none =>
      match s with
      | [] => []
      | c :: rest => findAllAux r n (some c) rest

/-- Python re.findall: non-overlapping matches, left to right. -/
def reFindAll (r : Rx) (s : Str) : List Caps := findAllAux r (s.length + 1) none s

/-- Group lookup; the most recent write wins, like Python group numbering. -/
def grpGet (caps : Caps) (i : Nat) : Option Str :=
  (caps.find? (fun p => p.fst == i)).map Prod.snd

def g (caps : Caps) (i : Nat) : Str := (grpGet caps i).getD []

end ExpAn

namespace ExpAn

/-! ### Pattern building blocks -/

def seqL : List Rx → Rx
  | [] => .eps
  | [r] => r
  | r :: t => .seq r (seqL t)

def altL : List Rx → Rx
  | [] => .eps
  | [r] => r
  | r :: t => .alt r (altL t)

def chS (c : Char) : Rx := .cls (.ch c)

def chCI (c : Char) : Rx := .cls (.chCI c)

/-- A case-sensitive literal. -/
def litS (s : String) : Rx := seqL (s.toList.map chS)

/-- A literal under IGNORECASE. -/
def litCI (s : String) : Rx := seqL (s.toList.map chCI)

/-- Greedy option, a?. -/
def copt (r : Rx) : Rx := .rep r 0 1 false

/-- Greedy plus, a+. -/
def plusG (r : Rx) : Rx := .seq r (.star r false)

/-- Lazy plus, a+?. -/
def plusL (r : Rx) : Rx := .seq r (.star r true)

/-- Greedy \s*. -/
def wsS : Rx := .star (.cls .space) false

/-- Greedy \s+. -/
def ws1 : Rx := plusG (.cls .space)

/-- \d{n}. -/
def dN (n : Nat) : Rx := .rep (.cls .digit) n n false

/-- The class [\d,]. -/
def digitComma : CC := .oneOf (sl "0123456789,")

/-- The money token [\d,]+\.\d{2} common to all amount patterns. -/
def money : Rx := seqL [plusG (.cls digitComma), chS '.', dN 2]

/-- \d{2}/\d{2}/\d{4}. -/
def dateRe : Rx := seqL [dN 2, chS '/', dN 2, chS '/', dN 4]

/-- [:\-]? before a value. -/
def colonDash : Rx := copt (.cls (.oneOf [':', '-']))

/-- (?:rs\.?|rs|₹)? under IGNORECASE. -/
def rsOpt : Rx := copt (altL [seqL [litCI "rs", copt (chS '.')], litCI "rs", chS '₹'])

/-! ### The regex patterns of extract_summary_from_pdf, named by source line -/

/-- L268: statement date\s*[:\-]?\s*(\d{2}/\d{2}/\d{4}), IGNORECASE. -/
def pat268 : Rx := seqL [litCI "statement date", wsS, colonDash, wsS, .grp 1 dateRe]

/-- L273: statement period\s*from\s*([A-Za-z0-9\s,]+?)\s*to\s*([A-Za-z0-9\s,]+?\d{4}), IGNORECASE. -/
def pat273 : Rx :=
  seqL [litCI "statement period", wsS, litCI "from", wsS,
        .grp 1 (plusL (.cls .alnumSpComma)), wsS, litCI "to", wsS,
        .grp 2 (seqL [plusL (.cls .alnumSpComma), dN 4])]

/-- The date form \d{1,2}\s+[A-Za-z]{3,9}\s*,?\s*\d{4} used twice in L279. -/
def dayMonYr : Rx :=
  seqL [.rep (.cls .digit) 1 2 false, ws1, .rep (.cls .alpha) 3 9 false,
        wsS, copt (chS ','), wsS, dN 4]

/-- L279: (\d{1,2}\s+[A-Za-z]{3,9}\s*,?\s*\d{4})\s+to\s+(same), IGNORECASE. -/
def pat279 : Rx := seqL [.grp 1 dayMonYr, ws1, litCI "to", ws1, .grp 2 dayMonYr]

/-- L285: payment due date\s*[:\-]?\s*(\d{2}/\d{2}/\d{4}), IGNORECASE. -/
def pat285 : Rx := seqL [litCI "payment due date", wsS, colonDash, wsS, .grp 1 dateRe]

/-- L290 (and L339): due by\s*([A-Za-z]{3,9}\s+\d{1,2}\,?\s*\d{4}), IGNORECASE. -/
def pat290 : Rx :=
  seqL [litCI "due by", wsS,
        .grp 1 (seqL [.rep (.cls .alpha) 3 9 false, ws1, .rep (.cls .digit) 1 2 false,
                      copt (chS ','), wsS, dN 4])]

/-- L295: minimum (?:amount )?due\s*[:\-]?\s*(?:rs\.?|rs|₹)?\s*([\d,]+\.\d{2}), IGNORECASE. -/
def pat295 : Rx :=
  seqL [litCI "minimum ", copt (litCI "amount "), litCI "due",
        wsS, colonDash, wsS, rsOpt, wsS, .grp 1 money]

/-- L299 (and L336): minimum payment\s*[:\-]?\s*(?:rs\.?|rs|₹)?\s*([\d,]+\.\d{2}), IGNORECASE. -/
def pat299 : Rx :=
  seqL [litCI "minimum payment", wsS, colonDash, wsS, rsOpt, wsS, .grp 1 money]

/-- L304: (?:total dues|total due|total amount due|closing balance)\s*[:\-]?\s*
(?:rs\.?|rs|₹)?\s*([\d,]+\.\d{2}), IGNORECASE. -/
def pat304 : Rx :=
  seqL [altL [litCI "total dues", litCI "total due", litCI "total amount due",
              litCI "closing balance"],
        wsS, colonDash, wsS, rsOpt, wsS, .grp 1 money]

/-- L309: \=\s*([\d,]+\.\d{2})\s*(?:[\s\D]{0,10})(?:minimum|min|due)?, IGNORECASE. -/
def pat309 : Rx :=
  seqL [chS '=', wsS, .grp 1 money, wsS, .rep (.cls .nonDigit) 0 10 false,
        copt (altL [litCI "minimum", litCI "min", litCI "due"])]

/-- L319: opening balance[^\n]*?([\d,]+\.\d{2})\s*[\-\+]\s*([\d,]+\.\d{2})\s*[\+\-]?\s*
([\d,]+\.\d{2})\s*=\s*([\d,]+\.\d{2})\s*([\d,]+\.\d{2})?, IGNORECASE. -/
def pat319 : Rx :=
  seqL [litCI "opening balance", .star (.cls .dot) true, .grp 1 money,
        wsS, .cls (.oneOf ['-', '+']), wsS, .grp 2 money,
        wsS, copt (.cls (.oneOf ['+', '-'])), wsS, .grp 3 money,
        wsS, chS '=', wsS, .grp 4 money, wsS, copt (.grp 5 money)]

/-- L344: at [A-Za-z0-9,\s]+?([\d,]+\.\d{2})\s+([\d,]+\.\d{2}), IGNORECASE. -/
def pat344 : Rx :=
  seqL [litCI "at ", plusL (.cls .alnumSpComma), .grp 1 money, ws1, .grp 2 money]

/-- L357: (\d{2}/\d{2}/\d{4})|([\d,]+\.\d{2}) — the HDFC findall token pattern. -/
def pat357 : Rx := .alt (.grp 1 dateRe) (.grp 2 money)

/-- L363: re.match \d{2}/\d{2}/\d{4} on a token (no group needed by the code). -/
def patDateBare : Rx := dateRe

/-- L383 (and L47, L196): (\d{2}/\d{2}/\d{4}) searched in a line. -/
def patDateG : Rx := .grp 1 dateRe

/-- L395: minimum amount due\s*[:\-]?\s*(?:rs\.?|rs|₹)?\s*([\d,]+\.\d{2}), IGNORECASE. -/
def pat395 : Rx :=
  seqL [litCI "minimum amount due", wsS, colonDash, wsS, rsOpt, wsS, .grp 1 money]

/-- L399: total dues\s*[:\-]?\s*(?:rs\.?|rs|₹)?\s*([\d,]+\.\d{2}), IGNORECASE. -/
def pat399 : Rx :=
  seqL [litCI "total dues", wsS, colonDash, wsS, rsOpt, wsS, .grp 1 money]

/-- L407: (\d{2}/\d{2}/\d{4})\s+([\d,]+\.\d{2})\s+([\d,]+\.\d{2})\s+(?:DR|Dr|dr)\b, case-sensitive. -/
def pat407 : Rx :=
  seqL [.grp 1 dateRe, ws1, .grp 2 money, ws1, .grp 3 money, ws1,
        altL [litS "DR", litS "Dr", litS "dr"], .wordB]

/-- L426: ([\d,]+\.\d{2})\s+([\d,]+\.\d{2})\s+(?:DR|Dr|dr)\b, case-sensitive. -/
def pat426 : Rx :=
  seqL [.grp 1 money, ws1, .grp 2 money, ws1, altL [litS "DR", litS "Dr", litS "dr"], .wordB]

/-- L438: ((?:[\d,]+\.\d{2}\s+){3}[\d,]+\.\d{2}), case-sensitive. -/
def pat438 : Rx := .grp 1 (seqL [.rep (seqL [money, ws1]) 3 3 false, money])

/-- L440: findall [\d,]+\.\d{2}.  The Python pattern has no group and findall
returns whole matches; wrapping the whole pattern in group 1 is equivalent. -/
def patMoneyG : Rx := .grp 1 money

/-- L455: (\d{2}/\d{2}/\d{4}).{0,40}([\d,]+\.\d{2}).{0,40}([\d,]+\.\d{2}), case-sensitive. -/
def pat455 : Rx :=
  seqL [.grp 1 dateRe, .rep (.cls .dot) 0 40 false, .grp 2 money,
        .rep (.cls .dot) 0 40 false, .grp 3 money]

/-- L474: minimum\s*(?:amount)?\s*(?:due|payable)?\s*[:\-]?\s*(?:rs\.?|rs|₹)?\s*
([\d,]+\.\d{2}), IGNORECASE. -/
def pat474 : Rx :=
  seqL [litCI "minimum", wsS, copt (litCI "amount"), wsS,
        copt (altL [litCI "due", litCI "payable"]), wsS, colonDash, wsS, rsOpt, wsS,
        .grp 1 money]

/-- L479: (?:total\s+due|total\s+dues|closing\s+balance|total\s+amount\s+due)\s*[:\-]?\s*
(?:rs\.?|rs|₹)?\s*([\d,]+\.\d{2}), IGNORECASE. -/
def pat479 : Rx :=
  seqL [altL [seqL [litCI "total", ws1, litCI "due"],
              seqL [litCI "total", ws1, litCI "dues"],
              seqL [litCI "closing", ws1, litCI "balance"],
              seqL [litCI "total", ws1, litCI "amount", ws1, litCI "due"]],
        wsS, colonDash, wsS, rsOpt, wsS, .grp 1 money]

/-- L484: minimum\s*payment\s*[:\-]?\s*(?:rs\.?|rs|₹)?\s*([\d,]+\.\d{2}).{0,40}?
due\s*by\s*([A-Za-z0-9,\s]+?\d{4}), IGNORECASE. -/
def pat484 : Rx :=
  seqL [litCI "minimum", wsS, litCI "payment", wsS, colonDash, wsS, rsOpt, wsS,
        .grp 1 money, .rep (.cls .dot) 0 40 true, litCI "due", wsS, litCI "by", wsS,
        .grp 2 (seqL [plusL (.cls .alnumSpComma), dN 4])]

/-- L57: ([A-Za-z]{3,9})\s+(\d{1,2})\s+(\d{4}) — the parse_date fallback. -/
def pat57 : Rx :=
  seqL [.grp 1 (.rep (.cls .alpha) 3 9 false), ws1,
        .grp 2 (.rep (.cls .digit) 1 2 false), ws1, .grp 3 (dN 4)]

end ExpAn


namespace ExpAn

/-! ### String utilities used by the pipeline -/

/-- Python str.split(sep) for a single-character separator (keeps empty parts). -/
def splitOn (sep : Char) : Str → List Str
  | [] => [[]]
  | c :: t =>
    if c = sep then [] :: splitOn sep t
    else
      match splitOn sep t with
      | [] => [[c]]
      | h :: rest => (c :: h) :: rest

/-- Python str.strip(): drop leading and trailing whitespace. -/
def stripA (s : Str) : Str :=
  ((s.dropWhile isSpaceA).reverse.dropWhile isSpaceA).reverse

/-- L251-254: the stripped, non-empty lines of one page text. -/
def linesOf (txt : Str) : List Str :=
  ((splitOn '\n' txt).map stripA).filter (fun l => !l.isEmpty)

/-- Python substring containment, needle in hay. -/
def containsSub : Str → Str → Bool
  | needle, [] => needle.isEmpty
  | needle, c :: t => List.isPrefixOf needle (c :: t) || containsSub needle t

/-- Python str.lower() over the model alphabet. -/
def lowerStr (s : Str) : Str := s.map lowerA

/-! ### Money: integer paise -/

def digitVal (c : Char) : Nat := c.toNat - '0'.toNat

/-- Value of a most-significant-first digit string. -/
def readNatA (s : Str) : Nat := s.foldl (fun a c => 10 * a + digitVal c) 0

/-- Core decimal literal reader, in paise.  Accepts what Python float() accepts
on the digits-and-dot alphabet that reaches it in this program: an optional
integer part, an optional dot, a fractional part of at most two digits (every
call site feeds tokens whose fractional part the regex fixed at two digits),
at least one digit in total.  Forms float() also accepts but that cannot occur
on that alphabet (signs, exponents, inf/nan) are not modelled. -/
def parseDecCents (t : Str) : Option Nat :=
  match splitOn '.' t with
  | [ip] =>
    if !ip.isEmpty && ip.all isDigitA then some (100 * readNatA ip) else none
  | [ip, fp] =>
    if (ip.all isDigitA && fp.all isDigitA) && (!ip.isEmpty || !fp.isEmpty) then
      match fp with
      | [] => some (100 * readNatA ip)
      | [a] => some (100 * readNatA ip + 10 * digitVal a)
      | [a, b] => some (100 * readNatA ip + 10 * digitVal a + digitVal b)
      | _ => none
    else none
  | _ => none

/-- Embeds parse_number (L34): strip commas and rupee signs, trim, read as a
float — modelled in paise. -/
def parse_number (s : Str) : Option Nat :=
  parseDecCents (stripA ((s.filter (fun c => c ≠ ',')).filter (fun c => c ≠ '₹')))

/-- Least-significant-first decimal digits of n (empty for 0); fuel-based so
that it reduces definitionally. -/
def natDigitsLsd : Nat → Nat → Str
  | _, 0 => []
  | 0, _ + 1 => []
  | f + 1, n + 1 => Nat.digitChar ((n + 1) % 10) :: natDigitsLsd f ((n + 1) / 10)

def digitsLsd (n : Nat) : Str := natDigitsLsd n n

/-- Insert a thousands comma after every third least-significant digit. -/
def grp3 : Str → Str
  | a :: b :: c :: d :: rest => a :: b :: c :: ',' :: grp3 (d :: rest)
  | l => l

/-- Integer part of the Python format f-string with comma grouping. -/
def intPartChars (n : Nat) : Str :=
  if n = 0 then ['0'] else (grp3 (digitsLsd n)).reverse

def pad2 (n : Nat) : Str := [Nat.digitChar (n / 10 % 10), Nat.digitChar (n % 10)]

/-- Embeds fmt_num (L25) applied to a numeric value (in paise): two decimals,
comma grouping, rupee prefix. -/
def fmt_num (cents : Nat) : Str :=
  '₹' :: intPartChars (cents / 100) ++ '.' :: pad2 (cents % 100)

/-- Embeds fmt_num (L25) applied to a string: float(val) succeeds exactly on
comma-free decimal text at the call sites (float() does not strip commas), in
which case the value is formatted with the rupee prefix; otherwise the string
is returned unchanged. -/
def fmt_num_str (s : Str) : Str :=
  match parseDecCents (stripA s) with
  | some cents => fmt_num cents
  | none => s

end ExpAn


namespace ExpAn

/-! ### Dates: the strptime formats used by parse_date (L51) and its fallback -/

/-- Split on whitespace runs, dropping empty fields (Python str.split()).
On the stripped inputs parse_date and the transaction paths feed to strptime,
field-wise matching coincides with the CPython strptime regex. -/
def fieldsWs (s : Str) : List Str :=
  ((splitOn ' ' ((s.map (fun c => if isSpaceA c then ' ' else c)))).filter
    (fun l => !l.isEmpty))

def monthAbbrevs : List Str :=
  [sl "jan", sl "feb", sl "mar", sl "apr", sl "may", sl "jun",
   sl "jul", sl "aug", sl "sep", sl "oct", sl "nov", sl "dec"]

def monthFulls : List Str :=
  [sl "january", sl "february", sl "march", sl "april", sl "may", sl "june",
   sl "july", sl "august", sl "september", sl "october", sl "november", sl "december"]

def idxOf (key : Str) : List Str → Nat → Option Nat
  | [], _ => none
  | x :: t, i => if x = key then some i else idxOf key t (i + 1)

/-- %b: an English month abbreviation, case-insensitively; 1-based month. -/
def pAbbr (f : Str) : Option Nat := (idxOf (lowerStr f) monthAbbrevs 0).map (· + 1)

/-- %B: an English full month name, case-insensitively; 1-based month. -/
def pFull (f : Str) : Option Nat := (idxOf (lowerStr f) monthFulls 0).map (· + 1)

/-- %d: one or two digits valued 1..31 (the CPython day regex). -/
def pDay (f : Str) : Option Nat :=
  if (f.length = 1 || f.length = 2) && f.all isDigitA then
    let v := readNatA f
    if 1 ≤ v && v ≤ 31 then some v else none
  else none

/-- %m: one or two digits valued 1..12. -/
def pMonNum (f : Str) : Option Nat :=
  if (f.length = 1 || f.length = 2) && f.all isDigitA then
    let v := readNatA f
    if 1 ≤ v && v ≤ 12 then some v else none
  else none

/-- %Y: exactly four digits. -/
def pYear (f : Str) : Option Nat :=
  if f.length = 4 && f.all isDigitA then some (readNatA f) else none

def isLeap (y : Nat) : Bool := (y % 4 = 0 && y % 100 ≠ 0) || y % 400 = 0

def daysInMonth (m y : Nat) : Nat :=
  if m = 2 then (if isLeap y then 29 else 28)
  else if m = 4 || m = 6 || m = 9 || m = 11 then 30
  else 31

def pad4 (y : Nat) : Str :=
  [Nat.digitChar (y / 1000 % 10), Nat.digitChar (y / 100 % 10),
   Nat.digitChar (y / 10 % 10), Nat.digitChar (y % 10)]

/-- datetime(y,m,d) validity followed by strftime("%d/%m/%Y"). -/
def mkDMY (d m y : Nat) : Option Str :=
  if 1 ≤ y && d ≤ daysInMonth m y then
    some (pad2 d ++ '/' :: pad2 m ++ '/' :: pad4 y)
  else none

/-- A three-whitespace-separated-field strptime format such as %d %b %Y. -/
def strp3 (p1 p2 p3 : Str → Option Nat) (mk : Nat → Nat → Nat → Option Str)
    (s : Str) : Option Str :=
  match fieldsWs s with
  | [f1, f2, f3] =>
    match p1 f1, p2 f2, p3 f3 with
    | some a, some b, some c => mk a b c
    | _, _, _ => none
  | _ => none

/-- %d %b, %Y and relatives: the middle field must end in a comma.  The
strings parse_date builds are comma-free (L45 removes commas), so these
formats never fire there; they are still embedded faithfully. -/
def pAbbrComma (f : Str) : Option Nat :=
  match f.reverse with
  | ',' :: restRev => pAbbr restRev.reverse
  | _ => none

/-- %B %d,%Y / %b %d,%Y: two fields, the second being day-comma-year. -/
def strpDayCommaYear (pm : Str → Option Nat) (s : Str) : Option Str :=
  match fieldsWs s with
  | [f1, f2] =>
    match splitOn ',' f2 with
    | [dp, yp] =>
      match pm f1, pDay dp, pYear yp with
      | some m, some d, some y => mkDMY d m y
      | _, _, _ => none
    | _ => none
  | _ => none

/-- The strptime chain of L51, in source order:
%d %b %Y, %d %B %Y, %b %d %Y, %B %d %Y, %d %m %Y, %d %b, %Y, %B %d,%Y, %b %d,%Y. -/
def strptimeChain (s : Str) : Option Str :=
  (strp3 pDay pAbbr pYear (fun d m y => mkDMY d m y) s).orElse fun _ =>
  (strp3 pDay pFull pYear (fun d m y => mkDMY d m y) s).orElse fun _ =>
  (strp3 pAbbr pDay pYear (fun m d y => mkDMY d m y) s).orElse fun _ =>
  (strp3 pFull pDay pYear (fun m d y => mkDMY d m y) s).orElse fun _ =>
  (strp3 pDay pMonNum pYear (fun d m y => mkDMY d m y) s).orElse fun _ =>
  (strp3 pDay pAbbrComma pYear (fun d m y => mkDMY d m y) s).orElse fun _ =>
  (strpDayCommaYear pFull s).orElse fun _ =>
  strpDayCommaYear pAbbr s

/-- Embeds parse_date (L41): empty input gives the sentinel; otherwise strip
and remove commas, look for a literal dd/mm/YYYY, then try the strptime
formats, then the Month-day-year fallback regex with %B before %b; if
everything fails, return the original argument unchanged (L67 returns
date_str, not the stripped s). -/
def parse_date (date_str : Str) : Str :=
  if date_str.isEmpty then sl "N/A"
  else
    let s := (stripA date_str).filter (fun c => c ≠ ',')
    match reSearch patDateG s with
    | some caps => g caps 1
    | none =>
      match strptimeChain s with
      | some d => d
      | none =>
        match reSearch pat57 s with
        | some caps =>
          let rebuilt := g caps 1 ++ ' ' :: g caps 2 ++ ' ' :: g caps 3
          match (strp3 pFull pDay pYear (fun m d y => mkDMY d m y) rebuilt).orElse
              (fun _ => strp3 pAbbr pDay pYear (fun m d y => mkDMY d m y) rebuilt) with
          | some d => d
          | none => date_str
        | none => date_str

end ExpAn


namespace ExpAn

/-! ### The summary pipeline (extract_summary_from_pdf, L216-515) -/

def NA : Str := sl "N/A"

/-- The four-field result dictionary threaded through the stages (L229-234). -/
structure Summary where
  sd : Str      -- "Statement date"
  pdd : Str     -- "Payment due date"
  minp : Str    -- "Minimum payable"
  total : Str   -- "Total Dues"
deriving DecidableEq

def defaultSummary : Summary := ⟨NA, NA, NA, NA⟩

/-- L261: detection of the American Express fingerprints in the lowered text. -/
def is_amex_flag (low : Str) : Bool :=
  containsSub (sl "american express") low || containsSub (sl "americanexpress") low

/-- L262: the HDFC fingerprint. -/
def is_hdfc_flag (low : Str) : Bool := containsSub (sl "hdfc") low

/-- L263: the Bank of Baroda fingerprints. -/
def is_bob_flag (low : Str) : Bool :=
  containsSub (sl "bobcard") low || containsSub (sl "bank of baroda") low ||
    containsSub (sl "bob card") low || containsSub (sl "b o bcard") low

/-- L264: the ICICI fingerprint (bound by the source but never used afterwards). -/
def is_icici_flag (low : Str) : Bool := containsSub (sl "icici") low

/-- L266-282: the statement-date label stage. -/
def stageStatementDate (text : Str) (r : Summary) : Summary :=
  match reSearch pat268 text with
  | some caps => { r with sd := parse_date (g caps 1) }
  | none =>
    match reSearch pat273 text with
    | some caps => { r with sd := parse_date (g caps 2) }
    | none =>
      match reSearch pat279 text with
      | some caps => { r with sd := parse_date (g caps 2) }
      | none => r

/-- L284-292: the payment-due-date label stage. -/
def stagePaymentDueDate (text : Str) (r : Summary) : Summary :=
  match reSearch pat285 text with
  | some caps => { r with pdd := parse_date (g caps 1) }
  | none =>
    match reSearch pat290 text with
    | some caps => { r with pdd := parse_date (g caps 1) }
    | none => r

/-- L294-301: the minimum-payable label stage. -/
def stageMinimum (text : Str) (r : Summary) : Summary :=
  match reSearch pat295 text with
  | some caps => { r with minp := fmt_num_str (g caps 1) }
  | none =>
    match reSearch pat299 text with
    | some caps => { r with minp := fmt_num_str (g caps 1) }
    | none => r

/-- L303-313: the total-dues label stage. -/
def stageTotal (text : Str) (r : Summary) : Summary :=
  match reSearch pat304 text with
  | some caps => { r with total := fmt_num_str (g caps 1) }
  | none =>
    match reSearch pat309 text with
    | some caps => if r.total == NA then { r with total := fmt_num_str (g caps 1) } else r
    | none => r

/-- L343-347: the AMEX credit-summary block.  The regex is evaluated and the
guard tested, but the branch body is the pass statement, so the field map is
returned unchanged in every case. -/
def amexCreditBlock (text : Str) (r : Summary) : Summary :=
  if (reSearch pat344 text).isSome && r.total == NA then r else r

/-- L317-347: the AMEX-specific heuristics. -/
def amexStage (text : Str) (r : Summary) : Summary :=
  let r1 :=
    match reSearch pat319 text with
    | some caps =>
      -- groups 1-3 (opening, credit, debit) are parsed and discarded by the
      -- source (L323-325); only closing (4) and the optional minimum (5) are used
      let closing := parse_number (g caps 4)
      let minimum := match grpGet caps 5 with
        | some gr => parse_number gr
        | none => none
      let ra := match closing with
        | some c => { r with total := fmt_num c }
        | none => r
      match minimum with
      | some m2 => { ra with minp := fmt_num m2 }
      | none => ra
    | none => r
  let r2 :=
    match reSearch pat299 text with  -- L336 reuses the minimum payment pattern
    | some caps => { r1 with minp := fmt_num_str (g caps 1) }
    | none => r1
  let r3 :=
    match reSearch pat290 text with  -- L339 reuses the due by pattern
    | some caps => { r2 with pdd := parse_date (g caps 1) }
    | none => r2
  amexCreditBlock text r3

/-- The shared magnitude rule of L369-377, L414-421, L430-435, L464-469: the
smaller value is taken as the minimum slot, the larger as the total slot. -/
def assignMinTot (a b : Nat) : Nat × Nat := if a ≤ b then (a, b) else (b, a)

/-- L352-355: an HDFC header line mentioning due date plus dues/minimum. -/
def hdfcHeaderHit (ln : Str) : Bool :=
  let lowln := lowerStr ln
  containsSub (sl "payment due date") lowln &&
    (containsSub (sl "total dues") lowln || containsSub (sl "total due") lowln ||
      containsSub (sl "minimum amount") lowln)

/-- L357-359: the flattened findall tokens of one line (t[0] or t[1]). -/
def flatTokens (ln : Str) : List Str :=
  (reFindAll pat357 ln).map (fun caps => if (g caps 1).isEmpty then g caps 2 else g caps 1)

/-- One iteration of the inner j-loop, L356-391.  some means the branch that
assigns fields and breaks was taken; none means the loop continues. -/
def hdfcInnerUpdate (lines : List Str) (idx : Nat) (r : Summary) (j : Nat) : Option Summary :=
  let flat := flatTokens (lines.getD j [])
  if flat.length ≥ 3 then
    let f0 := flat.getD 0 []
    if (reMatch patDateBare f0).isSome then
      match parse_number (flat.getD 1 []), parse_number (flat.getD 2 []) with
      | some a, some b =>
        let p := assignMinTot a b
        some { r with pdd := parse_date f0, minp := fmt_num p.1, total := fmt_num p.2 }
      | _, _ => none
    else
      let prevDate : Option Str :=
        if idx > 0 then
          match reSearch patDateG (lines.getD (idx - 1) []) with
          | some caps => some (parse_date (g caps 1))
          | none => none
        else none
      match parse_number (flat.getD 0 []), parse_number (flat.getD 1 []) with
      | some a, some b =>
        some { r with pdd := prevDate.getD r.pdd, total := fmt_num a, minp := fmt_num b }
      | _, _ => none
  else none

/-- L356: for j in range(idx, min(idx+3, len(lines))). -/
def hdfcJLoop (lines : List Str) (idx : Nat) (r : Summary) : Summary :=
  let js := ((List.range (min (idx + 3) lines.length)).drop idx)
  match js.findSome? (hdfcInnerUpdate lines idx r) with
  | some r2 => r2
  | none => r

/-- L352-391: the outer HDFC header scan (the inner break does not leave it). -/
def hdfcRowStage (lines : List Str) (r : Summary) : Summary :=
  (List.range lines.length).foldl
    (fun acc idx => if hdfcHeaderHit (lines.getD idx []) then hdfcJLoop lines idx acc else acc) r

/-- L393-401: the HDFC label fallbacks, guarded by the empty-slot checks. -/
def hdfcFallbackStage (text : Str) (r : Summary) : Summary :=
  let r1 :=
    if r.minp == NA then
      match reSearch pat395 text with
      | some caps => { r with minp := fmt_num_str (g caps 1) }
      | none => r
    else r
  if r1.total == NA then
    match reSearch pat399 text with
    | some caps => { r1 with total := fmt_num_str (g caps 1) }
    | none => r1
  else r1

def hdfcStage (text : Str) (lines : List Str) (r : Summary) : Summary :=
  hdfcFallbackStage text (hdfcRowStage lines r)

/-- L406-422: the BOB row scan; some means matched, parsed and broke. -/
def bobRowUpdate (r : Summary) (ln : Str) : Option Summary :=
  match reSearch pat407 ln with
  | some caps =>
    let d := parse_date (g caps 1)
    match parse_number (g caps 2), parse_number (g caps 3) with
    | some a1, some a2 =>
      let p := assignMinTot a1 a2
      some { r with pdd := d, minp := fmt_num p.1, total := fmt_num p.2 }
    | _, _ => none
  | none => none

def bobRowStage (lines : List Str) (r : Summary) : Summary :=
  match lines.findSome? (bobRowUpdate r) with
  | some r2 => r2
  | none => r

/-- L424-435: two numbers before a DR, when the total is still empty. -/
def bobPairStage (text : Str) (r : Summary) : Summary :=
  if r.total == NA then
    match reSearch pat426 text with
    | some caps =>
      match parse_number (g caps 1), parse_number (g caps 2) with
      | some a1, some a2 =>
        let p := assignMinTot a1 a2
        { r with minp := fmt_num p.1, total := fmt_num p.2 }
      | _, _ => r
    | none => r
  else r

def maxListN : List Nat → Nat
  | [] => 0
  | v :: t => t.foldl max v

def minListN : List Nat → Nat
  | [] => 0
  | v :: t => t.foldl min v

/-- L437-448: the four-number line heuristic.  Python would raise a TypeError
from max() if any token failed to parse (None in the list), which the outer
try of L246/501 would catch; that raise is modelled as the error case.  The
tokens are always parseable, so the error case is unreachable, but the
control flow is embedded faithfully. -/
def bobFourStage (text : Str) (r : Summary) : Except Unit Summary :=
  match reSearch pat438 text with
  | some caps =>
    if r.total == NA then
      let nums := (reFindAll patMoneyG (g caps 1)).map (fun cs => g cs 1)
      let numsF := nums.map parse_number
      if !numsF.isEmpty && numsF.length ≥ 4 then
        match numsF.mapM id with
        | some vals =>
          .ok { r with total := fmt_num (maxListN vals), minp := fmt_num (minListN vals) }
        | none => .error ()
      else .ok r
    else .ok r
  | none => .ok r

def bobStage (text : Str) (lines : List Str) (r : Summary) : Except Unit Summary :=
  bobFourStage text (bobPairStage text (bobRowStage lines r))

/-- L453-470: one iteration of the generic fallback line scan; some means the
regex matched (the break at L470 is inside the match branch). -/
def genericFallbackUpdate (r : Summary) (ln : Str) : Option Summary :=
  match reSearch pat455 ln with
  | some caps =>
    let d := parse_date (g caps 1)
    let r1 := if r.sd == NA then { r with sd := d } else r
    if r1.minp == NA || r1.total == NA then
      match parse_number (g caps 2), parse_number (g caps 3) with
      | some v1, some v2 =>
        let p := assignMinTot v1 v2
        some { r1 with minp := fmt_num p.1, total := fmt_num p.2 }
      | _, _ => some r1
    else some r1
  | none => none

/-- L450-470: the generic fallback over the first ten lines. -/
def genericFallbackStage (lines : List Str) (r : Summary) : Summary :=
  if r.total == NA || r.minp == NA || r.sd == NA then
    match (lines.take 10).findSome? (genericFallbackUpdate r) with
    | some r2 => r2
    | none => r
  else r

/-- L473-476: the final minimum-payable keyword sweep, only on an empty slot. -/
def finalMinStage (text : Str) (r : Summary) : Summary :=
  if r.minp == NA then
    match reSearch pat474 text with
    | some caps => { r with minp := fmt_num_str (g caps 1) }
    | none => r
  else r

/-- L478-481: the final total-dues keyword sweep, only on an empty slot. -/
def finalTotalStage (text : Str) (r : Summary) : Summary :=
  if r.total == NA then
    match reSearch pat479 text with
    | some caps => { r with total := fmt_num_str (g caps 1) }
    | none => r
  else r

/-- L483-487: the Minimum Payment ... Due by pattern; on a match both fields
are assigned unconditionally. -/
def minPaymentDueByStage (text : Str) (r : Summary) : Summary :=
  match reSearch pat484 text with
  | some caps => { r with minp := fmt_num_str (g caps 1), pdd := parse_date (g caps 2) }
  | none => r

/-- L489-491: re-normalise a non-sentinel statement date. -/
def finalizeSD (r : Summary) : Summary :=
  if r.sd != NA then { r with sd := parse_date r.sd } else r

/-- The newline join of L256, written directly for ease of induction. -/
def joinNl : List Str → Str
  | [] => []
  | [t] => t
  | t :: rest => t ++ '\n' :: joinNl rest

/-- L246-499: the body of the try block, from the per-page texts.  The error
case models a Python exception escaping to the handler at L501. -/
def extract_summary_core (pages : List Str) : Except Unit Summary :=
  let pagesText := pages.take 5          -- L248-253: pages_to_read = min(5, len(pages))
  let lines := (pagesText.map linesOf).flatten
  let text := joinNl pagesText
  let low := lowerStr text
  -- is_icici (L264) is bound by the source but never read afterwards
  let r0 := stageStatementDate text defaultSummary
  let r1 := stagePaymentDueDate text r0
  let r2 := stageMinimum text r1
  let r3 := stageTotal text r2
  let r4 := if is_amex_flag low then amexStage text r3 else r3
  let r5 := if is_hdfc_flag low then hdfcStage text lines r4 else r4
  match (if is_bob_flag low then bobStage text lines r5 else Except.ok r5) with
  | Except.error e => Except.error e
  | Except.ok r6 =>
    let r7 := genericFallbackStage lines r6
    let r8 := finalMinStage text r7
    let r9 := finalTotalStage text r8
    let r10 := minPaymentDueByStage text r9
    Except.ok (finalizeSD r10)

def keySD : Str := sl "Statement date"
def keyPDD : Str := sl "Payment due date"
def keyMIN : Str := sl "Minimum payable"
def keyTOT : Str := sl "Total Dues"

/-- The all-sentinel dictionary returned by L503-508 and L510-515. -/
def defaultDict : List (Str × Str) := [(keySD, NA), (keyPDD, NA), (keyMIN, NA), (keyTOT, NA)]

/-- Embeds extract_summary_from_pdf (L216).  The input is the result of
opening and text-extracting the document: per-page texts, or an error for an
unreadable source; the try/except of L246/501 turns any exception into the
default dictionary.  The returned association list is the dict of L494-499. -/
def extract_summary_from_pdf (src : Except Str (List Str)) : List (Str × Str) :=
  match src with
  | .error _ => defaultDict
  | .ok pages =>
    match extract_summary_core pages with
    | .ok r => [(keySD, r.sd), (keyPDD, r.pdd), (keyMIN, r.minp), (keyTOT, r.total)]
    | .error _ => defaultDict

end ExpAn


namespace ExpAn

/-! ### Transactions extraction (extract_transactions_from_pdf, L94-209) -/

/-- L130: ([A-Za-z]{3,9}\s+\d{1,2})\s+(.+?)\s+([\d,]+\.\d{2})\s*(CR|Cr|cr)?$, re.match. -/
def pat130 : Rx :=
  seqL [.grp 1 (seqL [.rep (.cls .alpha) 3 9 false, ws1, .rep (.cls .digit) 1 2 false]),
        ws1, .grp 2 (plusL (.cls .dot)), ws1, .grp 3 money, wsS,
        copt (.grp 4 (altL [litS "CR", litS "Cr", litS "cr"])), .eos]

/-- L146: .+?([\d,]+\.\d{2})\s*(CR|Cr|cr|DR|Dr|dr)?$, re.match. -/
def pat146 : Rx :=
  seqL [plusL (.cls .dot), .grp 1 money, wsS,
        copt (.grp 2 (altL [litS "CR", litS "Cr", litS "cr", litS "DR", litS "Dr", litS "dr"])),
        .eos]

/-- L156: ([A-Za-z]{3,9}\s+\d{1,2}).+?, re.match. -/
def pat156 : Rx :=
  seqL [.grp 1 (seqL [.rep (.cls .alpha) 3 9 false, ws1, .rep (.cls .digit) 1 2 false]),
        plusL (.cls .dot)]

/-- L165: (\d{2}/\d{2}/\d{4})(?:\s+\d{2}:\d{2}:\d{2})?\s+(.+?)\s+([\d,]+\.\d{2})\s*
(CR|Dr|DR|Cr)?\s*$, re.match. -/
def pat165 : Rx :=
  seqL [.grp 1 dateRe, copt (seqL [ws1, dN 2, chS ':', dN 2, chS ':', dN 2]),
        ws1, .grp 2 (plusL (.cls .dot)), ws1, .grp 3 money, wsS,
        copt (.grp 4 (altL [litS "CR", litS "Dr", litS "DR", litS "Cr"])), wsS, .eos]

/-- L181: (.+?)\s+(INR|Rs\.?|Rs)\s*([\d,]+\.\d{2})\s*(CR|Cr|cr|DR|Dr|dr)?$, re.search. -/
def pat181 : Rx :=
  seqL [.grp 1 (plusL (.cls .dot)), ws1,
        .grp 2 (altL [litS "INR", seqL [litS "Rs", copt (chS '.')], litS "Rs"]), wsS,
        .grp 3 money, wsS,
        copt (.grp 4 (altL [litS "CR", litS "Cr", litS "cr", litS "DR", litS "Dr", litS "dr"])),
        .eos]

structure TxRow where
  date : Str
  merchant : Str
  amount : Int      -- paise; credits are negative (L139, L160, L173, L191)
  ty : Str
  account : Str
deriving DecidableEq

/-- float(amount.replace(",", "")) in paise; none models except: continue. -/
def parseAmt (s : Str) : Option Nat := parseDecCents (s.filter (fun c => c ≠ ','))

def lowerStarts (s : Str) (pre : Str) : Bool := List.isPrefixOf pre (lowerStr s)

/-- L128-160: one AMEX-branch line (appends at most one row). -/
def amexLineRows (account : Str) (line : Str) : List TxRow :=
  match reMatch pat130 line with
  | some caps =>
    let date := parse_date (g caps 1 ++ sl " 2025")
    match parseAmt (g caps 3) with
    | some amt =>
      let isCR := match grpGet caps 4 with
        | some cr => lowerStarts cr (sl "cr")
        | none => false
      if isCR then [⟨date, stripA (g caps 2), -(amt : Int), sl "CR", account⟩]
      else [⟨date, stripA (g caps 2), (amt : Int), sl "DR", account⟩]
    | none => []
  | none =>
    match reMatch pat146 line with
    | some caps =>
      match parseAmt (g caps 1) with
      | some amt =>
        let isCR := match grpGet caps 2 with
          | some cr => lowerStarts cr (sl "cr")
          | none => false
        let date := match reMatch pat156 line with
          | some dcaps => parse_date (g dcaps 1 ++ sl " 2025")
          | none => NA
        if isCR then [⟨date, stripA line, -(amt : Int), sl "CR", account⟩]
        else [⟨date, stripA line, (amt : Int), sl "DR", account⟩]
      | none => []
    | none => []

/-- L163-201: one generic-branch line (appends at most one row). -/
def genericLineRows (account : Str) (line : Str) : List TxRow :=
  match reMatch pat165 line with
  | some caps =>
    match parseAmt (g caps 3) with
    | some amt =>
      let isCR := match grpGet caps 4 with
        | some d => lowerStarts (stripA d) (sl "cr")   -- L172: drcr.strip().lower()
        | none => false
      if isCR then [⟨parse_date (g caps 1), stripA (g caps 2), -(amt : Int), sl "CR", account⟩]
      else [⟨parse_date (g caps 1), stripA (g caps 2), (amt : Int), sl "DR", account⟩]
    | none => []
  | none =>
    match reSearch pat181 line with
    | some caps =>
      match parseAmt (g caps 3) with
      | some amt =>
        let isCR := match grpGet caps 4 with
          | some d => lowerStarts d (sl "cr")
          | none => false
        let date := match reSearch patDateG line with
          | some dc => parse_date (g dc 1)
          | none => NA
        if isCR then [⟨date, stripA (g caps 1), -(amt : Int), sl "CR", account⟩]
        else [⟨date, stripA (g caps 1), (amt : Int), sl "DR", account⟩]
      | none => []
    | none => []

/-- L120-203: the per-page loop body (empty extracted text is skipped). -/
def pageRows (isAmex : Bool) (account : Str) (text : Str) : List TxRow :=
  if text.isEmpty then []
  else
    let lines := linesOf text
    if isAmex then (lines.map (amexLineRows account)).flatten
    else (lines.map (genericLineRows account)).flatten

/-- Embeds extract_transactions_from_pdf (L94).  The function has no
try/except around pdfplumber.open (L111), so the exception raised by an
unreadable document propagates to the caller: the error input maps to the
error output.  On readable input the per-page line loops build the row list
(the DataFrame construction and rounding of L205-208 are the identity on
paise-valued rows). -/
def extract_transactions_from_pdf (src : Except Str (List Str)) (account : Str) :
    Except Str (List TxRow) :=
  match src with
  | .error e => .error e
  | .ok pages =>
    let sample := ((pages.take 3).map (fun t => lowerStr t ++ ['\n'])).flatten
    let isAmex := containsSub (sl "american express") sample ||
      containsSub (sl "americanexpress") sample
    .ok ((pages.map (pageRows isAmex account)).flatten)

end ExpAn


namespace ExpAn

/-! ### Digit-free inputs make every pattern fail

Every pattern the pipeline searches for contains a mandatory \d atom, so on
text without ASCII digits every search fails and every stage is the identity.
The lemmas hold for every fuel value. -/

/-- A string without ASCII digits. -/
def dfStr (s : Str) : Prop := ∀ c ∈ s, isDigitA c = false

instance (s : Str) : Decidable (dfStr s) := List.decidableBAll _ s

theorem dfStr_nil : dfStr [] := fun _ hc => absurd hc (List.not_mem_nil _)

theorem dfStr_suffix {s t : Str} (h : t <:+ s) (hd : dfStr s) : dfStr t :=
  fun c hc => hd c (h.subset hc)

/-- A pattern that can only succeed by consuming a digit. -/
def reqDigit : Rx → Bool
  | .eps => false
  | .cls c => match c with | .digit => true | _ => false
  | .seq a b => reqDigit a || reqDigit b
  | .alt a b => reqDigit a && reqDigit b
  | .rep a lo _ _ => decide (lo ≠ 0) && reqDigit a
  | .star _ _ => false
  | .grp _ a => reqDigit a
  | .wordB => false
  | .eos => false

/-- The matcher yields none whenever the continuation yields none on every
suffix of the input: a match produces a result only through its continuation. -/
theorem mtch_none_of_k_none {σ : Type} :
    ∀ (n : Nat) (r : Rx) (prev : Option Char) (s : Str) (caps : Caps)
      (k : Option Char → Str → Caps → Option σ),
      (∀ p t cs, t <:+ s → k p t cs = none) → mtch n r prev s caps k = none := by
  intro n
  induction n with
  | zero => intro r prev s caps k _; rfl
  | succ n ih =>
    intro r prev s caps k hk
    cases r with
    | eps => exact hk _ _ _ (List.suffix_refl s)
    | cls c =>
      cases s with
      | nil => rfl
      | cons x xs =>
        simp only [mtch]
        split
        · exact hk _ _ _ (List.suffix_cons x xs)
        · rfl
    | seq a b =>
      simp only [mtch]
      exact ih a prev s caps _ (fun p t cs hs =>
        ih b p t cs k (fun p2 u cs2 hu => hk _ _ _ (hu.trans hs)))
    | alt a b =>
      simp only [mtch, ih a prev s caps k hk, ih b prev s caps k hk]
    | rep a lo hi lz =>
      simp only [mtch]
      split
      · exact ih a prev s caps _ (fun p t cs hs =>
          ih _ p t cs k (fun p2 u cs2 hu => hk _ _ _ (hu.trans hs)))
      · split
        · exact hk _ _ _ (List.suffix_refl s)
        · split
          · simp only [hk _ _ _ (List.suffix_refl s)]
            exact ih a prev s caps _ (fun p t cs hs =>
              ih _ p t cs k (fun p2 u cs2 hu => hk _ _ _ (hu.trans hs)))
          · simp only [ih a prev s caps _ (fun p t cs hs =>
              ih _ p t cs k (fun p2 u cs2 hu => hk _ _ _ (hu.trans hs)))]
            exact hk _ _ _ (List.suffix_refl s)
    | star a lz =>
      simp only [mtch]
      split
      · simp only [hk _ _ _ (List.suffix_refl s)]
        exact ih a prev s caps _ (fun p t cs hs =>
          ih _ p t cs k (fun p2 u cs2 hu => hk _ _ _ (hu.trans hs)))
      · simp only [ih a prev s caps _ (fun p t cs hs =>
          ih _ p t cs k (fun p2 u cs2 hu => hk _ _ _ (hu.trans hs)))]
        exact hk _ _ _ (List.suffix_refl s)
    | grp i a =>
      simp only [mtch]
      exact ih a prev s caps _ (fun p t cs hs => hk _ _ _ hs)
    | wordB =>
      simp only [mtch]
      split
      · exact hk _ _ _ (List.suffix_refl s)
      · rfl
    | eos =>
      simp only [mtch]
      split
      · exact hk _ _ _ (List.suffix_refl s)
      · rfl

/-- On digit-free input a digit-requiring pattern can never match, whatever
the continuation. -/
theorem mtch_none_of_reqDigit {σ : Type} :
    ∀ (n : Nat) (r : Rx) (prev : Option Char) (s : Str) (caps : Caps)
      (k : Option Char → Str → Caps → Option σ),
      dfStr s → reqDigit r = true → mtch n r prev s caps k = none := by
  intro n
  induction n with
  | zero => intro r prev s caps k _ _; rfl
  | succ n ih =>
    intro r prev s caps k hs hr
    cases r with
    | eps => exact absurd hr (by simp [reqDigit])
    | cls c =>
      cases c
      case digit =>
        cases s with
        | nil => rfl
        | cons x xs =>
          simp only [mtch, ccMatches, hs x (List.mem_cons_self x xs)]
          rfl
      all_goals simp [reqDigit] at hr
    | seq a b =>
      simp only [mtch]
      have h2 : reqDigit a = true ∨ reqDigit b = true := by simpa [reqDigit] using hr
      rcases h2 with hA | hB
      · exact ih a prev s caps _ hs hA
      · exact mtch_none_of_k_none n a prev s caps _
          (fun p t cs ht => ih b p t cs k (dfStr_suffix ht hs) hB)
    | alt a b =>
      have h2 : reqDigit a = true ∧ reqDigit b = true := by simpa [reqDigit] using hr
      simp only [mtch, ih a prev s caps k hs h2.1, ih b prev s caps k hs h2.2]
    | rep a lo hi lz =>
      have h2 : ¬lo = 0 ∧ reqDigit a = true := by simpa [reqDigit] using hr
      simp only [mtch, if_pos h2.1]
      exact ih a prev s caps _ hs h2.2
    | star a lz => exact absurd hr (by simp [reqDigit])
    | grp i a =>
      simp only [mtch]
      exact ih a prev s caps _ hs (by simpa [reqDigit] using hr)
    | wordB => exact absurd hr (by simp [reqDigit])
    | eos => exact absurd hr (by simp [reqDigit])

theorem searchAux_df (r : Rx) (hr : reqDigit r = true) :
    ∀ (n : Nat) (prev : Option Char) (s : Str), dfStr s → searchAux r n prev s = none := by
  intro n
  induction n with
  | zero => intro prev s _; rfl
  | succ n ih =>
    intro prev s hs
    simp only [searchAux, mtch_none_of_reqDigit _ _ _ _ _ _ hs hr]
    cases s with
    | nil => rfl
    | cons c rest => exact ih (some c) rest (dfStr_suffix (List.suffix_cons c rest) hs)

theorem reSearch_df (r : Rx) (hr : reqDigit r = true) (s : Str) (hs : dfStr s) :
    reSearch r s = none :=
  searchAux_df r hr _ none s hs

theorem reMatch_df (r : Rx) (hr : reqDigit r = true) (s : Str) (hs : dfStr s) :
    reMatch r s = none :=
  mtch_none_of_reqDigit _ _ _ _ _ _ hs hr

theorem findAllAux_df (r : Rx) (hr : reqDigit r = true) :
    ∀ (n : Nat) (prev : Option Char) (s : Str), dfStr s → findAllAux r n prev s = [] := by
  intro n
  induction n with
  | zero => intro prev s _; rfl
  | succ n ih =>
    intro prev s hs
    simp only [findAllAux, mtch_none_of_reqDigit _ _ _ _ _ _ hs hr]
    cases s with
    | nil => rfl
    | cons c rest => exact ih (some c) rest (dfStr_suffix (List.suffix_cons c rest) hs)

theorem reFindAll_df (r : Rx) (hr : reqDigit r = true) (s : Str) (hs : dfStr s) :
    reFindAll r s = [] :=
  findAllAux_df r hr _ none s hs

end ExpAn

namespace ExpAn

/-! ### Each stage is the identity on digit-free text -/

theorem findSome?_none_of_all {α β : Type} (f : α → Option β) :
    ∀ (l : List α), (∀ x ∈ l, f x = none) → l.findSome? f = none := by
  intro l
  induction l with
  | nil => intro _; rfl
  | cons x t ih =>
    intro h
    simp only [List.findSome?, h x (List.mem_cons_self x t)]
    exact ih (fun y hy => h y (List.mem_cons_of_mem x hy))

theorem dfStr_getD : ∀ (lines : List Str), (∀ l ∈ lines, dfStr l) → ∀ (i : Nat),
    dfStr (lines.getD i [])
  | [], _, 0 => dfStr_nil
  | [], _, _ + 1 => dfStr_nil
  | x :: t, hl, 0 => by simpa using hl x (List.mem_cons_self x t)
  | x :: t, hl, i + 1 => by
    simpa using dfStr_getD t (fun l hlm => hl l (List.mem_cons_of_mem x hlm)) i

theorem stageStatementDate_df (text : Str) (r : Summary) (h : dfStr text) :
    stageStatementDate text r = r := by
  simp only [stageStatementDate, reSearch_df pat268 (by decide) text h,
    reSearch_df pat273 (by decide) text h, reSearch_df pat279 (by decide) text h]

theorem stagePaymentDueDate_df (text : Str) (r : Summary) (h : dfStr text) :
    stagePaymentDueDate text r = r := by
  simp only [stagePaymentDueDate, reSearch_df pat285 (by decide) text h,
    reSearch_df pat290 (by decide) text h]

theorem stageMinimum_df (text : Str) (r : Summary) (h : dfStr text) :
    stageMinimum text r = r := by
  simp only [stageMinimum, reSearch_df pat295 (by decide) text h,
    reSearch_df pat299 (by decide) text h]

theorem stageTotal_df (text : Str) (r : Summary) (h : dfStr text) :
    stageTotal text r = r := by
  simp only [stageTotal, reSearch_df pat304 (by decide) text h,
    reSearch_df pat309 (by decide) text h]

theorem amexCreditBlock_id (text : Str) (r : Summary) : amexCreditBlock text r = r := by
  simp [amexCreditBlock]

theorem amexStage_df (text : Str) (r : Summary) (h : dfStr text) :
    amexStage text r = r := by
  simp only [amexStage, reSearch_df pat319 (by decide) text h,
    reSearch_df pat299 (by decide) text h, reSearch_df pat290 (by decide) text h,
    amexCreditBlock_id]

theorem flatTokens_df (ln : Str) (h : dfStr ln) : flatTokens ln = [] := by
  simp [flatTokens, reFindAll_df pat357 (by decide) ln h]

theorem hdfcInnerUpdate_df (lines : List Str) (hl : ∀ l ∈ lines, dfStr l)
    (idx : Nat) (r : Summary) (j : Nat) : hdfcInnerUpdate lines idx r j = none := by
  have h := flatTokens_df (lines.getD j []) (dfStr_getD lines hl j)
  simp only [hdfcInnerUpdate]
  rw [h]
  rfl

theorem hdfcJLoop_df (lines : List Str) (hl : ∀ l ∈ lines, dfStr l)
    (idx : Nat) (r : Summary) : hdfcJLoop lines idx r = r := by
  simp only [hdfcJLoop,
    findSome?_none_of_all _ _ (fun j _ => hdfcInnerUpdate_df lines hl idx r j)]

theorem hdfcRowStage_df (lines : List Str) (hl : ∀ l ∈ lines, dfStr l)
    (r : Summary) : hdfcRowStage lines r = r := by
  simp only [hdfcRowStage]
  induction List.range lines.length generalizing r with
  | nil => rfl
  | cons i t ih =>
    simp only [List.foldl_cons]
    rw [show (if hdfcHeaderHit (lines.getD i []) then hdfcJLoop lines i r else r) = r by
      split
      · exact hdfcJLoop_df lines hl i r
      · rfl]
    exact ih r

theorem hdfcFallbackStage_df (text : Str) (r : Summary) (h : dfStr text) :
    hdfcFallbackStage text r = r := by
  simp only [hdfcFallbackStage, reSearch_df pat395 (by decide) text h,
    reSearch_df pat399 (by decide) text h]
  split <;> split <;> rfl

theorem hdfcStage_df (text : Str) (lines : List Str) (r : Summary)
    (ht : dfStr text) (hl : ∀ l ∈ lines, dfStr l) : hdfcStage text lines r = r := by
  rw [hdfcStage, hdfcRowStage_df lines hl r, hdfcFallbackStage_df text r ht]

theorem bobRowUpdate_df (r : Summary) (ln : Str) (h : dfStr ln) :
    bobRowUpdate r ln = none := by
  simp [bobRowUpdate, reSearch_df pat407 (by decide) ln h]

theorem bobRowStage_df (lines : List Str) (hl : ∀ l ∈ lines, dfStr l)
    (r : Summary) : bobRowStage lines r = r := by
  simp only [bobRowStage,
    findSome?_none_of_all _ _ (fun ln hln => bobRowUpdate_df r ln (hl ln hln))]

theorem bobPairStage_df (text : Str) (r : Summary) (h : dfStr text) :
    bobPairStage text r = r := by
  simp only [bobPairStage, reSearch_df pat426 (by decide) text h]
  split <;> rfl

theorem bobFourStage_df (text : Str) (r : Summary) (h : dfStr text) :
    bobFourStage text r = .ok r := by
  simp [bobFourStage, reSearch_df pat438 (by decide) text h]

theorem bobStage_df (text : Str) (lines : List Str) (r : Summary)
    (ht : dfStr text) (hl : ∀ l ∈ lines, dfStr l) : bobStage text lines r = .ok r := by
  rw [bobStage, bobRowStage_df lines hl r, bobPairStage_df text r ht,
    bobFourStage_df text r ht]

theorem genericFallbackUpdate_df (r : Summary) (ln : Str) (h : dfStr ln) :
    genericFallbackUpdate r ln = none := by
  simp [genericFallbackUpdate, reSearch_df pat455 (by decide) ln h]

theorem genericFallbackStage_df (lines : List Str) (hl : ∀ l ∈ lines, dfStr l)
    (r : Summary) : genericFallbackStage lines r = r := by
  simp only [genericFallbackStage,
    findSome?_none_of_all _ _ (fun ln hln =>
      genericFallbackUpdate_df r ln (hl ln (List.take_subset 10 lines hln)))]
  split <;> rfl

theorem finalMinStage_df (text : Str) (r : Summary) (h : dfStr text) :
    finalMinStage text r = r := by
  simp only [finalMinStage, reSearch_df pat474 (by decide) text h]
  split <;> rfl

theorem finalTotalStage_df (text : Str) (r : Summary) (h : dfStr text) :
    finalTotalStage text r = r := by
  simp only [finalTotalStage, reSearch_df pat479 (by decide) text h]
  split <;> rfl

theorem minPaymentDueByStage_df (text : Str) (r : Summary) (h : dfStr text) :
    minPaymentDueByStage text r = r := by
  simp only [minPaymentDueByStage, reSearch_df pat484 (by decide) text h]

end ExpAn

namespace ExpAn

/-! ### Digit-freeness propagates from the pages to the derived text and lines -/

theorem mem_splitOn (sep : Char) :
    ∀ (s : Str) (part : Str), part ∈ splitOn sep s → ∀ c ∈ part, c ∈ s := by
  intro s
  induction s with
  | nil =>
    intro part hp c hc
    simp only [splitOn, List.mem_singleton] at hp
    subst hp
    exact absurd hc (List.not_mem_nil c)
  | cons x t ih =>
    intro part hp c hc
    simp only [splitOn] at hp
    split at hp
    · rcases List.mem_cons.mp hp with h | h
      · subst h; exact absurd hc (List.not_mem_nil c)
      · exact List.mem_cons_of_mem x (ih part h c hc)
    · rcases hx : splitOn sep t with _ | ⟨h0, rest⟩
      · rw [hx] at hp
        simp only [List.mem_singleton] at hp
        subst hp
        have hcx : c = x := by simpa using hc
        simp [hcx]
      · rw [hx] at hp
        rcases List.mem_cons.mp hp with h | h
        · subst h
          rcases List.mem_cons.mp hc with h2 | h2
          · simp [h2]
          · exact List.mem_cons_of_mem x (ih h0 (by simp [hx]) c h2)
        · exact List.mem_cons_of_mem x (ih part (by simp [hx, h]) c hc)

theorem mem_stripA (s : Str) (c : Char) (hc : c ∈ stripA s) : c ∈ s := by
  unfold stripA at hc
  rw [List.mem_reverse] at hc
  have h1 : c ∈ (s.dropWhile isSpaceA).reverse :=
    List.Sublist.subset (List.dropWhile_sublist _) hc
  rw [List.mem_reverse] at h1
  exact List.Sublist.subset (List.dropWhile_sublist _) h1

theorem dfStr_of_mem_linesOf {txt : Str} (h : dfStr txt) :
    ∀ l ∈ linesOf txt, dfStr l := by
  intro l hl c hc
  simp only [linesOf, List.mem_filter, List.mem_map] at hl
  rcases hl with ⟨⟨part, hpart, hstrip⟩, _⟩
  subst hstrip
  exact h c (mem_splitOn '\n' txt part hpart c (mem_stripA part c hc))

theorem dfStr_joinNl : ∀ (ts : List Str), (∀ t ∈ ts, dfStr t) → dfStr (joinNl ts)
  | [], _ => dfStr_nil
  | [t], h => h t (List.mem_singleton.mpr rfl)
  | t :: t2 :: rest, h => by
    intro c hc
    have hdisj : c ∈ t ∨ c = '\n' ∨ c ∈ joinNl (t2 :: rest) := by
      simpa [joinNl] using hc
    rcases hdisj with h1 | h1 | h1
    · exact h t (List.mem_cons_self _ _) c h1
    · subst h1; decide
    · exact dfStr_joinNl (t2 :: rest)
        (fun x hx => h x (List.mem_cons_of_mem t hx)) c h1

/-- On a document whose pages contain no ASCII digit, the try-block body
returns the untouched all-sentinel field map. -/
theorem extract_summary_core_df (pages : List Str) (h : ∀ p ∈ pages, dfStr p) :
    extract_summary_core pages = .ok defaultSummary := by
  have hpt : ∀ p ∈ pages.take 5, dfStr p :=
    fun p hp => h p (List.take_subset 5 pages hp)
  have htext : dfStr (joinNl (pages.take 5)) := dfStr_joinNl _ hpt
  have hlines : ∀ l ∈ ((pages.take 5).map linesOf).flatten, dfStr l := by
    intro l hl
    rcases List.mem_flatten.mp hl with ⟨ls, hls, hmem⟩
    rcases List.mem_map.mp hls with ⟨p, hp, hrfl⟩
    subst hrfl
    exact dfStr_of_mem_linesOf (hpt p hp) l hmem
  simp only [extract_summary_core]
  rw [stageStatementDate_df _ _ htext, stagePaymentDueDate_df _ _ htext,
    stageMinimum_df _ _ htext, stageTotal_df _ _ htext]
  rw [show (if is_amex_flag (lowerStr (joinNl (pages.take 5)))
        then amexStage (joinNl (pages.take 5)) defaultSummary else defaultSummary)
      = defaultSummary by
    split
    · exact amexStage_df _ _ htext
    · rfl]
  rw [show (if is_hdfc_flag (lowerStr (joinNl (pages.take 5)))
        then hdfcStage (joinNl (pages.take 5)) ((pages.take 5).map linesOf).flatten
          defaultSummary else defaultSummary) = defaultSummary by
    split
    · exact hdfcStage_df _ _ _ htext hlines
    · rfl]
  rw [show (if is_bob_flag (lowerStr (joinNl (pages.take 5)))
        then bobStage (joinNl (pages.take 5)) ((pages.take 5).map linesOf).flatten
          defaultSummary else Except.ok defaultSummary) = Except.ok defaultSummary by
    split
    · exact bobStage_df _ _ _ htext hlines
    · rfl]
  simp only [genericFallbackStage_df _ hlines, finalMinStage_df _ _ htext,
    finalTotalStage_df _ _ htext, minPaymentDueByStage_df _ _ htext]
  rfl

end ExpAn

namespace ExpAn

/-! ### The canonical money format round-trips through parse_number -/

def valLsd : Str → Nat
  | [] => 0
  | c :: t => digitVal c + 10 * valLsd t

theorem readNatA_reverse (l : Str) : readNatA l.reverse = valLsd l := by
  induction l with
  | nil => rfl
  | cons c t ih =>
    simp only [valLsd, List.reverse_cons, readNatA, List.foldl_append, List.foldl_cons,
      List.foldl_nil]
    simp only [readNatA] at ih
    omega

theorem digitVal_digitChar (d : Nat) (h : d < 10) : digitVal (Nat.digitChar d) = d := by
  interval_cases d <;> rfl

theorem isDigitA_digitChar (d : Nat) (h : d < 10) : isDigitA (Nat.digitChar d) = true := by
  interval_cases d <;> rfl

theorem digitChar_ne_comma (d : Nat) (h : d < 10) : Nat.digitChar d ≠ ',' := by
  interval_cases d <;> decide

theorem digitChar_ne_dot (d : Nat) (h : d < 10) : Nat.digitChar d ≠ '.' := by
  interval_cases d <;> decide

theorem digitChar_ne_rupee (d : Nat) (h : d < 10) : Nat.digitChar d ≠ '₹' := by
  interval_cases d <;> decide

theorem digitChar_not_space (d : Nat) (h : d < 10) : isSpaceA (Nat.digitChar d) = false := by
  interval_cases d <;> decide

theorem valLsd_natDigitsLsd : ∀ (f n : Nat), n ≤ f → valLsd (natDigitsLsd f n) = n := by
  intro f
  induction f with
  | zero =>
    intro n hn
    have : n = 0 := Nat.le_zero.mp hn
    subst this
    rfl
  | succ f ih =>
    intro n hn
    cases n with
    | zero => rfl
    | succ m =>
      simp only [natDigitsLsd, valLsd]
      rw [digitVal_digitChar _ (Nat.mod_lt _ (by omega)),
        ih ((m + 1) / 10) (by omega)]
      omega

theorem mem_natDigitsLsd : ∀ (f n : Nat) (c : Char), c ∈ natDigitsLsd f n →
    ∃ d, d < 10 ∧ c = Nat.digitChar d := by
  intro f
  induction f with
  | zero =>
    intro n c hc
    cases n <;> simp [natDigitsLsd] at hc
  | succ f ih =>
    intro n c hc
    cases n with
    | zero => simp [natDigitsLsd] at hc
    | succ m =>
      simp only [natDigitsLsd, List.mem_cons] at hc
      rcases hc with h | h
      · exact ⟨(m + 1) % 10, Nat.mod_lt _ (by omega), h⟩
      · exact ih _ c h

theorem grp3_filter_comma : ∀ (l : Str), (∀ c ∈ l, c ≠ ',') →
    (grp3 l).filter (fun c => c ≠ ',') = l := by
  intro l
  induction l using grp3.induct with
  | case1 a b c d rest ih =>
    intro h
    have ha : a ≠ ',' := h a (by simp)
    have hb : b ≠ ',' := h b (by simp)
    have hc : c ≠ ',' := h c (by simp)
    have hrest := ih (fun x hx => h x (by
      rcases List.mem_cons.mp hx with h1 | h1
      · simp [h1]
      · simp [List.mem_cons, h1]))
    simpa [grp3, List.filter_cons, ha, hb, hc] using hrest
  | case2 l hshape =>
    intro h
    rw [grp3]
    · exact List.filter_eq_self.mpr (fun c hc => by simpa using h c hc)
    · exact hshape

end ExpAn

namespace ExpAn

theorem splitOn_no_sep (sep : Char) :
    ∀ (l : Str), (∀ c ∈ l, c ≠ sep) → splitOn sep l = [l] := by
  intro l
  induction l with
  | nil => intro _; rfl
  | cons x t ih =>
    intro h
    have hx : x ≠ sep := h x (List.mem_cons_self x t)
    simp only [splitOn, if_neg hx, ih (fun c hc => h c (List.mem_cons_of_mem x hc))]

theorem splitOn_append (sep : Char) :
    ∀ (a b : Str), (∀ c ∈ a, c ≠ sep) → splitOn sep (a ++ sep :: b) = a :: splitOn sep b := by
  intro a
  induction a with
  | nil =>
    intro b _
    simp [splitOn]
  | cons x t ih =>
    intro b h
    have hx : x ≠ sep := h x (List.mem_cons_self x t)
    simp only [List.cons_append, splitOn, if_neg hx]
    rw [show t.append (sep :: b) = t ++ sep :: b from rfl,
      ih b (fun c hc => h c (List.mem_cons_of_mem x hc))]

theorem dropWhile_eq_self_of_none (p : Char → Bool) :
    ∀ (l : Str), (∀ c ∈ l, p c = false) → l.dropWhile p = l := by
  intro l
  induction l with
  | nil => intro _; rfl
  | cons x t _ =>
    intro h
    simp [List.dropWhile_cons, h x (List.mem_cons_self x t)]

theorem stripA_no_space (l : Str) (h : ∀ c ∈ l, isSpaceA c = false) : stripA l = l := by
  unfold stripA
  rw [dropWhile_eq_self_of_none _ l h,
    dropWhile_eq_self_of_none _ l.reverse (fun c hc => h c (List.mem_reverse.mp hc)),
    List.reverse_reverse]

theorem mem_grp3 : ∀ (l : Str) (c : Char), c ∈ grp3 l → c ∈ l ∨ c = ',' := by
  intro l
  induction l using grp3.induct with
  | case1 a b c2 d rest ih =>
    intro c hc
    simp only [grp3, List.mem_cons] at hc
    rcases hc with h | h | h | h | h
    · simp [h]
    · simp [h]
    · simp [h]
    · exact Or.inr h
    · rcases ih c h with h2 | h2
      · simp [List.mem_cons] at h2 ⊢
        tauto
      · exact Or.inr h2
  | case2 l hshape =>
    intro c hc
    rw [grp3] at hc
    · exact Or.inl hc
    · exact hshape

/-- Every character of the canonical integer-part rendering is a decimal digit
or a comma, and the digits reconstruct the value once commas are dropped. -/
theorem intPartChars_spec (m : Nat) :
    (intPartChars m).filter (fun c => c ≠ ',') ≠ [] ∧
    ((intPartChars m).filter (fun c => c ≠ ',')).all isDigitA = true ∧
    readNatA ((intPartChars m).filter (fun c => c ≠ ',')) = m ∧
    (∀ c ∈ intPartChars m, c ≠ '.' ∧ c ≠ '₹' ∧ isSpaceA c = false) := by
  by_cases hm : m = 0
  · subst hm
    refine ⟨by decide, by decide, by decide, ?_⟩
    intro c hc
    have hc0 : c = '0' := by simpa [intPartChars] using hc
    subst hc0
    exact ⟨by decide, by decide, by decide⟩
  · have hdig : ∀ c ∈ digitsLsd m, ∃ d, d < 10 ∧ c = Nat.digitChar d :=
      fun c hc => mem_natDigitsLsd m m c hc
    have hnocomma : ∀ c ∈ digitsLsd m, c ≠ ',' := by
      intro c hc
      rcases hdig c hc with ⟨d, hd, rfl⟩
      exact digitChar_ne_comma d hd
    have hfr : (intPartChars m).filter (fun c => c ≠ ',') = (digitsLsd m).reverse := by
      rw [intPartChars, if_neg hm, List.filter_reverse, grp3_filter_comma _ hnocomma]
    have hmemrev : ∀ c ∈ (digitsLsd m).reverse, ∃ d, d < 10 ∧ c = Nat.digitChar d :=
      fun c hc => hdig c (List.mem_reverse.mp hc)
    have hne : digitsLsd m ≠ [] := by
      intro hnil
      have hv := valLsd_natDigitsLsd m m (le_refl m)
      rw [show natDigitsLsd m m = digitsLsd m from rfl, hnil] at hv
      exact hm (by simpa [valLsd] using hv.symm)
    refine ⟨?_, ?_, ?_, ?_⟩
    · rw [hfr]
      intro hnil
      exact hne (by simpa using congrArg List.reverse hnil)
    · rw [hfr, List.all_eq_true]
      intro c hc
      rcases hmemrev c hc with ⟨d, hd, rfl⟩
      exact isDigitA_digitChar d hd
    · rw [hfr, readNatA_reverse]
      exact valLsd_natDigitsLsd m m (le_refl m)
    · intro c hc
      have hc2 : c ∈ grp3 (digitsLsd m) := by
        rw [intPartChars, if_neg hm] at hc
        exact List.mem_reverse.mp hc
      rcases mem_grp3 _ c hc2 with h2 | h2
      · rcases hdig c h2 with ⟨d, hd, rfl⟩
        exact ⟨digitChar_ne_dot d hd, digitChar_ne_rupee d hd, digitChar_not_space d hd⟩
      · subst h2
        exact ⟨by decide, by decide, by decide⟩

end ExpAn

namespace ExpAn

theorem isDigitA_facts (c : Char) (h : isDigitA c = true) :
    c ≠ ',' ∧ c ≠ '.' ∧ c ≠ '₹' ∧ isSpaceA c = false := by
  refine ⟨?_, ?_, ?_, ?_⟩
  · rintro rfl; exact absurd h (by decide)
  · rintro rfl; exact absurd h (by decide)
  · rintro rfl; exact absurd h (by decide)
  · by_contra hsp
    have hsp2 : isSpaceA c = true := by
      cases hv : isSpaceA c
      · exact absurd hv hsp
      · rfl
    have hcases : c = ' ' ∨ c = '\t' ∨ c = '\n' ∨ c = '\r' ∨ c = '\x0b' ∨ c = '\x0c' := by
      simpa [isSpaceA, or_assoc] using hsp2
    rcases hcases with h1 | h1 | h1 | h1 | h1 | h1 <;> (subst h1; exact absurd h (by decide))

theorem pad2_digits (k : Nat) : ∀ c ∈ pad2 k, isDigitA c = true := by
  intro c hc
  rcases List.mem_cons.mp hc with h | h
  · subst h; exact isDigitA_digitChar _ (Nat.mod_lt _ (by omega))
  · have hcb : c = Nat.digitChar (k % 10) := by simpa using h
    subst hcb
    exact isDigitA_digitChar _ (Nat.mod_lt _ (by omega))

/-- The canonical rupee rendering parses back to the exact paise value: the
display formatter of fmt_num and parse_number are mutually inverse on
program money values. -/
theorem parse_number_fmt_num (n : Nat) : parse_number (fmt_num n) = some n := by
  obtain ⟨hne, hall, hval, _hchars⟩ := intPartChars_spec (n / 100)
  have hDdig : ∀ c ∈ (intPartChars (n / 100)).filter (fun c => decide (c ≠ ',')),
      isDigitA c = true := fun c hc => List.all_eq_true.mp hall c hc
  have hP : ∀ c ∈ pad2 (n % 100), isDigitA c = true := pad2_digits (n % 100)
  have hstep1 : (fmt_num n).filter (fun c => decide (c ≠ ',')) =
      '₹' :: (intPartChars (n / 100)).filter (fun c => decide (c ≠ ',')) ++
        '.' :: pad2 (n % 100) := by
    simp only [fmt_num, List.filter_cons, List.filter_append]
    rw [show (pad2 (n % 100)).filter (fun c => decide (c ≠ ',')) = pad2 (n % 100) from
      List.filter_eq_self.mpr (fun c hc => by simp [(isDigitA_facts c (hP c hc)).1])]
    simp
  have hstep2 : ('₹' :: (intPartChars (n / 100)).filter (fun c => decide (c ≠ ',')) ++
        '.' :: pad2 (n % 100)).filter (fun c => decide (c ≠ '₹')) =
      (intPartChars (n / 100)).filter (fun c => decide (c ≠ ',')) ++
        '.' :: pad2 (n % 100) := by
    simp only [List.filter_cons, List.filter_append]
    rw [show ((intPartChars (n / 100)).filter (fun c => decide (c ≠ ','))).filter
          (fun c => decide (c ≠ '₹')) =
        (intPartChars (n / 100)).filter (fun c => decide (c ≠ ',')) from
      List.filter_eq_self.mpr (fun c hc => by
        simp [(isDigitA_facts c (hDdig c hc)).2.2.1])]
    rw [show (pad2 (n % 100)).filter (fun c => decide (c ≠ '₹')) = pad2 (n % 100) from
      List.filter_eq_self.mpr (fun c hc => by
        simp [(isDigitA_facts c (hP c hc)).2.2.1])]
    simp
  have hstep3 : stripA ((intPartChars (n / 100)).filter (fun c => decide (c ≠ ',')) ++
      '.' :: pad2 (n % 100)) =
      (intPartChars (n / 100)).filter (fun c => decide (c ≠ ',')) ++
        '.' :: pad2 (n % 100) := by
    apply stripA_no_space
    intro c hc
    rcases List.mem_append.mp hc with h | h
    · exact (isDigitA_facts c (hDdig c h)).2.2.2
    · rcases List.mem_cons.mp h with h4 | h4
      · subst h4; decide
      · exact (isDigitA_facts c (hP c h4)).2.2.2
  have hstep4 : splitOn '.' ((intPartChars (n / 100)).filter (fun c => decide (c ≠ ',')) ++
      '.' :: pad2 (n % 100)) =
      [(intPartChars (n / 100)).filter (fun c => decide (c ≠ ',')), pad2 (n % 100)] := by
    rw [splitOn_append '.' _ _ (fun c hc => (isDigitA_facts c (hDdig c hc)).2.1),
      splitOn_no_sep '.' _ (fun c hc => (isDigitA_facts c (hP c hc)).2.1)]
  rw [parse_number, hstep1, hstep2, hstep3]
  simp only [parseDecCents]
  rw [hstep4]
  have hallD : ((intPartChars (n / 100)).filter (fun c => decide (c ≠ ','))).all
      isDigitA = true := List.all_eq_true.mpr hDdig
  have hallP : (pad2 (n % 100)).all isDigitA = true := List.all_eq_true.mpr hP
  have hnotempP : (pad2 (n % 100)).isEmpty = false := by simp [pad2]
  simp only [hallD, hallP, hnotempP, Bool.and_true, Bool.true_and, Bool.not_false,
    Bool.true_or, Bool.or_true, if_true]
  simp only [pad2]
  rw [hval, digitVal_digitChar _ (Nat.mod_lt _ (by omega)),
    digitVal_digitChar _ (Nat.mod_lt _ (by omega))]
  congr 1
  omega

end ExpAn

namespace ExpAn

/-! ### Claim settlements -/

/-- C1: the two-line document refuting first-writer-wins. -/
def c1text : Str :=
  sl "minimum amount due 100.00\nminimum payment 500.00 due by August 5 2025"

/-- C1 counterexample: the direct label regex stage (L295) commits Minimum
payable = ₹100.00, but the final Minimum Payment ... Due by pattern (L484)
overwrites the slot unconditionally, so the returned map carries ₹500.00: the
earlier, more reliable value is not retained. -/
theorem c1_first_writer_wins_refuted :
    (stageMinimum c1text defaultSummary).minp = sl "₹100.00" ∧
    extract_summary_from_pdf (.ok [c1text]) =
      [(keySD, NA), (keyPDD, sl "05/08/2025"), (keyMIN, sl "₹500.00"), (keyTOT, NA)] ∧
    sl "₹500.00" ≠ sl "₹100.00" :=
  ⟨by decide, by decide, by decide⟩

/-- C1 amended: only the stages that are guarded by an explicit empty-slot
check obey first-writer-wins; in particular the final keyword sweeps
(L473-481) never overwrite a resolved Minimum payable or Total Dues, while
the bank row heuristics and the L484 pattern assign unconditionally. -/
theorem c1_guarded_stages_preserve_resolved (text : Str) (r : Summary)
    (hm : r.minp ≠ NA) (ht : r.total ≠ NA) :
    finalMinStage text r = r ∧ finalTotalStage text r = r := by
  constructor
  · simp only [finalMinStage, beq_eq_false_iff_ne.mpr hm]
    rfl
  · simp only [finalTotalStage, beq_eq_false_iff_ne.mpr ht]
    rfl

/-- C1 witness: the guarded sweeps leave an already-resolved map unchanged on
a document that would otherwise match both keyword patterns. -/
theorem c1_guarded_stages_preserve_resolved_witness :
    finalMinStage (sl "minimum due 1.00 total dues 2.00")
        ⟨NA, NA, sl "₹9.00", sl "₹8.00"⟩ = ⟨NA, NA, sl "₹9.00", sl "₹8.00"⟩ ∧
    finalTotalStage (sl "minimum due 1.00 total dues 2.00")
        ⟨NA, NA, sl "₹9.00", sl "₹8.00"⟩ = ⟨NA, NA, sl "₹9.00", sl "₹8.00"⟩ :=
  c1_guarded_stages_preserve_resolved _ _ (by decide) (by decide)

/-- C2: the unlabeled four-number cluster line of the specification. -/
def c2text : Str := sl "15/08/2025  50,000.00  42,350.50  3,200.00  160.00"

/-- C2 counterexample: on the cluster line the engine does not resolve Total
Dues = ₹3,200.00 and Minimum payable = ₹160.00; both slots receive ₹0.00 (the
greedy bounded-window regex of L455 captures the two trailing "0.00" digit
tails), and no CreditLimit/AvailableCredit assignment exists anywhere in the
returned map. -/
theorem c2_cluster_scenario_refuted :
    (extract_summary_from_pdf (.ok [c2text])).getD 3 (NA, NA) = (keyTOT, sl "₹0.00") ∧
    sl "₹0.00" ≠ sl "₹3,200.00" ∧
    (extract_summary_from_pdf (.ok [c2text])).getD 2 (NA, NA) = (keyMIN, sl "₹0.00") ∧
    sl "₹0.00" ≠ sl "₹160.00" :=
  ⟨by decide, by decide, by decide, by decide⟩

/-- C2 amended: on the cluster line the only cluster handling is the generic
fallback (L450-470): it sets the statement date from the leading date token
and, because its two bounded 40-character windows are consumed greedily,
captures the digit tails 0.00 and 0.00, assigning Minimum payable = ₹0.00 and
Total Dues = ₹0.00. -/
theorem c2_cluster_scenario_actual :
    extract_summary_from_pdf (.ok [c2text]) =
      [(keySD, sl "15/08/2025"), (keyPDD, NA), (keyMIN, sl "₹0.00"),
       (keyTOT, sl "₹0.00")] := by
  decide

/-- C3: a document whose labels give minimum above total. -/
def c3text : Str := sl "minimum amount due 500.00\ntotal dues 100.00"

/-- C3 counterexample: a final summary with both money fields resolved in
which the numeric Minimum payable (₹500.00) strictly exceeds Total Dues
(₹100.00): the claimed invariant fails on the code. -/
theorem c3_invariant_refuted :
    extract_summary_from_pdf (.ok [c3text]) =
      [(keySD, NA), (keyPDD, NA), (keyMIN, sl "₹500.00"), (keyTOT, sl "₹100.00")] ∧
    parse_number (sl "₹500.00") = some 50000 ∧
    parse_number (sl "₹100.00") = some 10000 ∧ (10000 : Nat) < 50000 :=
  ⟨by decide, by decide, by decide, by decide⟩

/-- C3 amended: Minimum payable ≤ Total Dues is guaranteed only for pairs
assigned together by the shared magnitude rule (assignMinTot, used by the BOB
rows, the HDFC header rows and the generic fallback): the smaller parsed
value lands in the minimum slot and the larger in the total slot, exactly and
with the canonical rendering; pairs taken from two independent label matches
are never reconciled. -/
theorem c3_magnitude_rule_invariant (a b : Nat) :
    parse_number (fmt_num (assignMinTot a b).1) = some (min a b) ∧
    parse_number (fmt_num (assignMinTot a b).2) = some (max a b) ∧
    (assignMinTot a b).1 ≤ (assignMinTot a b).2 := by
  have h1 : (assignMinTot a b).1 = min a b := by
    by_cases hab : a ≤ b
    · simp [assignMinTot, hab, Nat.min_def]
    · simp [assignMinTot, hab, Nat.min_def]
  have h2 : (assignMinTot a b).2 = max a b := by
    by_cases hab : a ≤ b
    · simp [assignMinTot, hab, Nat.max_def]
    · simp [assignMinTot, hab, Nat.max_def]
  rw [h1, h2]
  exact ⟨parse_number_fmt_num _, parse_number_fmt_num _, min_le_max⟩

/-- C4: a one-line document with minimum above total after resolution. -/
def c4text : Str := sl "minimum amount due 600.00 total amount due 50.00"

/-- C4 counterexample: after the chain completes with Minimum payable ₹600.00
strictly above Total Dues ₹50.00, the returned map keeps both inconsistent
values: Minimum payable is neither re-derived as a smaller unused token nor
reverted to the sentinel. -/
theorem c4_no_repair_counterexample :
    extract_summary_from_pdf (.ok [c4text]) =
      [(keySD, NA), (keyPDD, NA), (keyMIN, sl "₹600.00"), (keyTOT, sl "₹50.00")] ∧
    parse_number (sl "₹600.00") = some 60000 ∧
    parse_number (sl "₹50.00") = some 5000 ∧
    (5000 : Nat) < 60000 ∧ sl "₹600.00" ≠ NA :=
  ⟨by decide, by decide, by decide, by decide, by decide⟩

/-- C4 amended: the engine has no repair path: the only transformation after
the strategy stages (finalizeSD, L489-491) re-normalises the statement date
and returns Minimum payable and Total Dues unchanged, even when the parsed
minimum strictly exceeds the parsed total. -/
theorem c4_finalize_no_repair (r : Summary) (m t : Nat)
    (_hm : parse_number r.minp = some m) (_ht : parse_number r.total = some t)
    (_hlt : t < m) :
    (finalizeSD r).minp = r.minp ∧ (finalizeSD r).total = r.total := by
  unfold finalizeSD
  split <;> exact ⟨rfl, rfl⟩

/-- C4 witness: the no-repair finalisation at an inconsistent concrete map. -/
theorem c4_finalize_no_repair_witness :
    (finalizeSD ⟨NA, NA, sl "₹600.00", sl "₹50.00"⟩).minp = sl "₹600.00" ∧
    (finalizeSD ⟨NA, NA, sl "₹600.00", sl "₹50.00"⟩).total = sl "₹50.00" :=
  c4_finalize_no_repair ⟨NA, NA, sl "₹600.00", sl "₹50.00"⟩ 60000 5000
    (by decide) (by decide) (by decide)

/-- C5: an AMEX document carrying only the credit limit and available credit. -/
def c5text : Str := sl "american express\nat July 18, 2025 470,000.00 435,100.09"

/-- C5 counterexample: the credit-summary regex at L344 recognises the
credit-limit pair 470,000.00 / 435,100.09 and Total Dues is unresolved, yet
nothing is derived: the branch body is pass and the whole summary comes back
as sentinels, not CreditLimit − AvailableCredit = ₹34,899.91. -/
theorem c5_no_derivation_counterexample :
    (reSearch pat344 c5text).isSome = true ∧
    extract_summary_from_pdf (.ok [c5text]) = defaultDict ∧
    fmt_num (47000000 - 43510009) = sl "₹34,899.91" ∧
    (extract_summary_from_pdf (.ok [c5text])).getD 3 (NA, NA) ≠
      (keyTOT, sl "₹34,899.91") :=
  ⟨by decide, by decide, by decide, by decide⟩

/-- C5 amended: there is no derivation step: the only code that reads the
credit-limit/available-credit pair (the AMEX credit block, L343-347) returns
the field map unchanged in every case, so no field is ever computed from
CreditLimit − AvailableCredit or CreditLimit − TotalDue. -/
theorem c5_credit_block_derives_nothing (text : Str) (r : Summary) :
    amexCreditBlock text r = r ∧ (amexCreditBlock text r).total = r.total := by
  have h : amexCreditBlock text r = r := by simp [amexCreditBlock]
  exact ⟨h, by rw [h]⟩

/-- C6: a document matching two issuer fingerprints at once. -/
def c6text : Str := sl "hdfc icici"

/-- C6 counterexample: issuer detection is four independent substring flags
(L261-264), not a first-match priority choice: this text sets both the HDFC
and the ICICI flag simultaneously, so the classifier does not select exactly
one issuer and ties are possible. -/
theorem c6_two_issuers_counterexample :
    is_hdfc_flag (lowerStr c6text) = true ∧ is_icici_flag (lowerStr c6text) = true :=
  ⟨by decide, by decide⟩

/-- C6 amended: classification is a vector of four independent fingerprint
flags; several can hold at once, and text matching no fingerprint sets none
of them, so only the generic stages run — never an error. -/
theorem c6_no_fingerprint_is_generic (low : Str)
    (h1 : containsSub (sl "american express") low = false)
    (h2 : containsSub (sl "americanexpress") low = false)
    (h3 : containsSub (sl "hdfc") low = false)
    (h4 : containsSub (sl "bobcard") low = false)
    (h5 : containsSub (sl "bank of baroda") low = false)
    (h6 : containsSub (sl "bob card") low = false)
    (h7 : containsSub (sl "b o bcard") low = false)
    (h8 : containsSub (sl "icici") low = false) :
    is_amex_flag low = false ∧ is_hdfc_flag low = false ∧
    is_bob_flag low = false ∧ is_icici_flag low = false := by
  simp [is_amex_flag, is_hdfc_flag, is_bob_flag, is_icici_flag,
    h1, h2, h3, h4, h5, h6, h7, h8]

/-- C6 witness: unmatched text yields the all-false (generic) flag vector. -/
theorem c6_no_fingerprint_is_generic_witness :
    is_amex_flag (sl "hello world") = false ∧ is_hdfc_flag (sl "hello world") = false ∧
    is_bob_flag (sl "hello world") = false ∧ is_icici_flag (sl "hello world") = false :=
  c6_no_fingerprint_is_generic (sl "hello world") (by decide) (by decide) (by decide)
    (by decide) (by decide) (by decide) (by decide) (by decide)

/-- C7: on a document none of whose pages contains an ASCII digit — hence no
date-like and no currency-like token anywhere — every field of the returned
summary is the sentinel and the (total) function returns normally. -/
theorem c7_unknown_propagation (pages : List Str) (h : ∀ p ∈ pages, dfStr p) :
    extract_summary_from_pdf (.ok pages) = defaultDict := by
  have hcore := extract_summary_core_df pages h
  simp [extract_summary_from_pdf, hcore, defaultSummary, defaultDict]

/-- C7 witness: a concrete digit-free document maps to the all-sentinel
dictionary. -/
theorem c7_unknown_propagation_witness :
    extract_summary_from_pdf (.ok [sl "hello world, no amounts at all"]) = defaultDict :=
  c7_unknown_propagation [sl "hello world, no amounts at all"] (by decide)

/-- C8 counterexample: extract_transactions_from_pdf has no try/except around
the document open (L111), so the unreadable-document exception propagates to
the caller instead of the function returning normally. -/
theorem c8_transactions_error_propagates :
    extract_transactions_from_pdf (.error (sl "unreadable document")) (sl "acct") =
      .error (sl "unreadable document") := rfl

/-- C8 amended: on an unreadable document, extract_summary_from_pdf returns
normally with the all-sentinel dictionary (its body is wrapped in
try/except, L246/501), while extract_transactions_from_pdf propagates the
exception: a multi-document batch survives only the summary call. -/
theorem c8_error_handling_asymmetry (e : Str) (account : Str) :
    extract_summary_from_pdf (.error e) = defaultDict ∧
    extract_transactions_from_pdf (.error e) account = .error e :=
  ⟨rfl, rfl⟩

/-- C9: a label whose captured amount contains a thousands comma. -/
def c9text : Str := sl "total dues 1,234.56"

/-- C9 counterexample: the resolved Total Dues field is the raw matched text
1,234.56 — float() rejects comma-grouped strings, so fmt_num returns its
argument unchanged (L31-32) — neither the canonical rupee-prefixed display
string nor the unknown sentinel. -/
theorem c9_comma_capture_not_normalized :
    extract_summary_from_pdf (.ok [c9text]) =
      [(keySD, NA), (keyPDD, NA), (keyMIN, NA), (keyTOT, sl "1,234.56")] ∧
    sl "1,234.56" ≠ NA ∧ (sl "1,234.56").head? ≠ some '₹' :=
  ⟨by decide, by decide, by decide⟩

/-- C9 amended: only values that reach the formatter as parsed numbers are
rendered canonically — rupee prefix, comma grouping, two decimals, and an
exact round-trip through parse_number; string captures that float() rejects
(and dates parse_date cannot parse) are stored as raw source text rather
than the sentinel. -/
theorem c9_numeric_values_canonical (n : Nat) :
    parse_number (fmt_num n) = some n ∧ (fmt_num n).head? = some '₹' :=
  ⟨parse_number_fmt_num n, rfl⟩

/-- C10: for every input — readable or not — the function returns (it never
raises: its body is inside the try of L246, and the handler of L501 returns
the default) and the result binds exactly the four documented keys, in
order, each to a string. -/
theorem c10_output_shape (src : Except Str (List Str)) :
    (extract_summary_from_pdf src).map Prod.fst = [keySD, keyPDD, keyMIN, keyTOT] := by
  unfold extract_summary_from_pdf
  cases src with
  | error e => rfl
  | ok pages =>
    rcases hc : extract_summary_core pages with e | r
    · simp only [hc]
      rfl
    · simp only [hc]
      rfl

end ExpAn
